import Mathlib

/-!
Verification development for the annotation-combination filter of the
image-dataset-converter-imgvis repository
(src/idc/imgvis/filter/_combine_annotations.py, class CombineAnnotations).

The combination filter is embedded shallowly:

* `find_matches` embeds `CombineAnnotations._find_matches` (the greedy
  IoU matcher).  The external function `intersect_over_union` from the
  idc.api collaborator package is abstracted as a function parameter,
  and the shapely polygon values it consumes are an abstract type `α`.
* `combineOne` / `combineAll` / `processItem` / `_do_process` embed
  `CombineAnnotations._do_process`.  The external geometry collaborators
  (shapely's `unary_union` and `intersection`, and idc.api's
  `locatedobjects_to_shapely`) are bundled in the `GeoOps` record; their
  results are inspected through the `Geometry` type, which mirrors the
  shapely result classes the source dispatches on (Polygon,
  MultiPolygon, GeometryCollection, anything else).
* `CombineAnnotations.init` embeds the constructor's combination-mode
  validation, and `finalize` embeds `CombineAnnotations.finalize`; the
  observable side effects of `finalize` (logging, the report write) are
  reified as a list of `Effect` values.

Machine floats of the source are modelled as rationals; Python `int()`
conversion (truncation toward zero) is `pyInt`.  The CPython iteration
order of the `match_old` / `match_new` sets (sets of small ints built
from `range`, shrunk by `remove`) is ascending index order, which the
model keeps by representing them as sorted lists shrunk by `erase`.
-/

namespace Imgvis

/-- Metadata key used by the filter for provenance
(`STREAM_INDEX = "stream_index"` in the source). -/
def STREAM_INDEX : String := "stream_index"

/-- The string constant `UNION` of the idc.api collaborator.
Modelled from the spec: `CombinationMode` is the enum {UNION, INTERSECT};
the concrete strings live in idc.api, outside this repository. -/
def UNION : String := "union"

/-- The string constant `INTERSECT` of the idc.api collaborator.
Modelled from the spec: see `UNION`. -/
def INTERSECT : String := "intersect"

/-- The list `COMBINATIONS` of recognized combination modes of the
idc.api collaborator.  Modelled from the spec: `CombinationMode`
is exactly {UNION, INTERSECT}. -/
def COMBINATIONS : List String := [UNION, INTERSECT]

/-- A located object (wai.common `LocatedObject`): bounding box
(x, y, width, height), polygon points, and a metadata map.  Metadata
values are modelled as naturals since the filter only ever stores the
stream index. -/
structure LocatedObject where
  x : Int
  y : Int
  width : Int
  height : Int
  polygon : List (ℚ × ℚ)
  metadata : List (String × Nat)
deriving DecidableEq, Inhabited

/-- One entry of the list returned by `_find_matches`: an old/new index
pair plus the IoU (`-1` means no match on that side, exactly as in the
source). -/
structure Corr where
  o : Int
  n : Int
  iou : ℚ
deriving DecidableEq

/-- Shapely geometry results, as far as `_do_process` dispatches on
them: a simple polygon (carrying its exterior coordinates), the
multipart classes MultiPolygon and GeometryCollection (carrying their
members), and any other geometry type (LineString, Point, ...). -/
inductive Geometry where
  | polygon (coords : List (ℚ × ℚ)) : Geometry
  | multiPolygon (geoms : List Geometry) : Geometry
  | geometryCollection (geoms : List Geometry) : Geometry
  | other (typeName : String) : Geometry

/-- Interface of the external geometry collaborators, with `α` the
abstract type of shapely polygons: per-object conversion (idc.api's
`locatedobjects_to_shapely` maps a list of located objects to the list
of their polygons), `intersect_over_union`, and the two combination
operations `unary_union([new, old])` and `new.intersection(old)`. -/
structure GeoOps (α : Type) where
  toShapely : LocatedObject → α
  iouF : α → α → ℚ
  union2 : α → α → Geometry
  inter2 : α → α → Geometry

/-- The configuration of a `CombineAnnotations` instance:
`min_iou`, `combination` and `output_file`. -/
structure Config where
  min_iou : ℚ
  combination : String
  output_file : String
deriving DecidableEq

/-- The mutable state of `_find_matches`: the two unmatched index sets
and the accumulated result list.  The sets are kept as ascending lists
(CPython iteration order for these int sets). -/
structure MatchState where
  matchNew : List Nat
  matchOld : List Nat
  result : List Corr

/-- Per-pair output of the combining loop body: appended objects plus
emitted warning messages. -/
structure StepOut where
  objs : List LocatedObject
  warnings : List String
deriving DecidableEq

/-- The stream state of the filter: `_stream_index` (set to 0 on
initialization) and the accumulated combined annotation
(`_annotation` in the source, `none` until the first frame seeds it). -/
structure FilterState where
  streamIndex : Nat
  currentAnn : Option (List LocatedObject)
deriving DecidableEq

/-- Observable side effects of `finalize`: log messages and the report
write. -/
inductive Effect where
  | logInfo (msg : String) : Effect
  | write (path : String) (report : List LocatedObject) : Effect
deriving DecidableEq

/-- Inner loop of `_find_matches`: `for o, poly_old in enumerate(polygons_old)`
for a fixed new polygon `pn` at index `n`.  For a pair with
`iou > 0` and `iou >= min_iou` the pair is appended to the result and
both indices are removed from the unmatched sets when still present
(`List.erase` is the identity on absent elements, like the guarded
`remove` calls in the source). -/
def findInner (min_iou : ℚ) (f : α → α → ℚ) (pn : α) (n : Nat) :
    List α → Nat → MatchState → MatchState
  | [], _, st => st
  | po :: rest, o, st =>
      findInner min_iou f pn n rest (o + 1)
        (if 0 < f pn po then
          if min_iou ≤ f pn po then
            { matchNew := st.matchNew.erase n
              matchOld := st.matchOld.erase o
              result := st.result ++ [{ o := (o : Int), n := (n : Int), iou := f pn po }] }
          else st
        else st)

/-- Outer loop of `_find_matches`: `for n, poly_new in enumerate(polygons_new)`. -/
def findOuter (min_iou : ℚ) (f : α → α → ℚ) (old : List α) :
    List α → Nat → MatchState → MatchState
  | [], _, st => st
  | pn :: rest, n, st =>
      findOuter min_iou f old rest (n + 1) (findInner min_iou f pn n old 0 st)

/-- The state of the matcher after both loops of `_find_matches`,
starting from `match_new = set(range(len(polygons_new)))`,
`match_old = set(range(len(polygons_old)))` and an empty result. -/
def matcherState (min_iou : ℚ) (f : α → α → ℚ) (old new : List α) : MatchState :=
  findOuter min_iou f old new 0
    { matchNew := List.range new.length
      matchOld := List.range old.length
      result := [] }

/-- `CombineAnnotations._find_matches`: the result of the double loop,
followed by one `(o, -1, 0.0)` entry per leftover old index and one
`(-1, n, 0.0)` entry per leftover new index. -/
def find_matches (min_iou : ℚ) (f : α → α → ℚ) (old new : List α) : List Corr :=
  let st := matcherState min_iou f old new
  st.result ++ st.matchOld.map (fun o : Nat => { o := (o : Int), n := -1, iou := 0 })
    ++ st.matchNew.map (fun nn : Nat => { o := -1, n := (nn : Int), iou := 0 })

/-- Python `int()` on a rational: truncation toward zero. -/
def pyInt (q : ℚ) : Int := if 0 ≤ q then ⌊q⌋ else ⌈q⌉

/-- Minimum of a list of rationals (0 for the degenerate empty list,
which shapely never produces for a non-empty polygon). -/
def qmin : List ℚ → ℚ
  | [] => 0
  | q :: rest => rest.foldl min q

/-- Maximum of a list of rationals (0 for the degenerate empty list). -/
def qmax : List ℚ → ℚ
  | [] => 0
  | q :: rest => rest.foldl max q

/-- `isinstance(x, Polygon)` for a geometry member. -/
def isPolyB : Geometry → Bool
  | Geometry.polygon _ => true
  | _ => false

/-- The Python type name used in the skip warning. -/
def geomTypeName : Geometry → String
  | Geometry.polygon _ => "Polygon"
  | Geometry.multiPolygon _ => "MultiPolygon"
  | Geometry.geometryCollection _ => "GeometryCollection"
  | Geometry.other s => s

/-- The warning logged when no simple polygon could be extracted from
the combination result. -/
def unhandledMsg (g : Geometry) : String :=
  "Unhandled geometry type returned from combination, skipping: " ++ geomTypeName g

/-- Lines 192-202 of the source: when the combination result is a
GeometryCollection or a MultiPolygon, replace it by its first member
that is a Polygon; when no member qualifies (or for any other geometry)
leave the value unchanged. -/
def selectGeometry : Geometry → Geometry
  | Geometry.multiPolygon gs =>
      match gs.find? isPolyB with
      | some p => p
      | none => Geometry.multiPolygon gs
  | Geometry.geometryCollection gs =>
      match gs.find? isPolyB with
      | some p => p
      | none => Geometry.geometryCollection gs
  | g => g

/-- Lines 186-191 of the source: pick the combination operation from
the configured mode, raising on an unknown mode. -/
def combineGeom (cfg : Config) (geo : GeoOps α) (pn po : α) : Except String Geometry :=
  if cfg.combination = UNION then Except.ok (geo.union2 pn po)
  else if cfg.combination = INTERSECT then Except.ok (geo.inter2 pn po)
  else Except.error ("Unknown combination method: " ++ cfg.combination)

/-- Lines 204-214 of the source, success case: the merged located
object built from a combination polygon.  The bounding box applies
`int()` to the four bounds of the polygon, width/height are inclusive
extents plus one, the polygon keeps the exterior coordinates, and the
metadata of the freshly constructed object holds exactly the current
stream index. -/
def mergedObject (si : Nat) (coords : List (ℚ × ℚ)) : LocatedObject :=
  { x := pyInt (qmin (coords.map Prod.fst))
    y := pyInt (qmin (coords.map Prod.snd))
    width := pyInt (qmax (coords.map Prod.fst)) - pyInt (qmin (coords.map Prod.fst)) + 1
    height := pyInt (qmax (coords.map Prod.snd)) - pyInt (qmin (coords.map Prod.snd)) + 1
    polygon := coords
    metadata := [(STREAM_INDEX, si)] }

/-- Lines 204-217 of the source: build the merged object when the
selected geometry is a Polygon, nothing otherwise. -/
def buildMerged (si : Nat) : Geometry → Option LocatedObject
  | Geometry.polygon coords => some (mergedObject si coords)
  | _ => none

/-- The body of the `for o, n, iou in matches` loop of `_do_process`
for one correspondence: new-only and old-only entries pass the
corresponding object through unchanged; matched entries are combined,
the first simple polygon is selected from the result and turned into a
fresh located object, and a degenerate result is skipped with a
warning. -/
def combineOne (cfg : Config) (geo : GeoOps α) [Inhabited α] (si : Nat)
    (oldObjs newObjs : List LocatedObject) (spOld spNew : List α) (c : Corr) :
    Except String StepOut :=
  if c.o = -1 then
    Except.ok { objs := [newObjs.getD c.n.toNat default], warnings := [] }
  else if c.n = -1 then
    Except.ok { objs := [oldObjs.getD c.o.toNat default], warnings := [] }
  else
    match combineGeom cfg geo (spNew.getD c.n.toNat default) (spOld.getD c.o.toNat default) with
    | Except.error e => Except.error e
    | Except.ok polyComb =>
        match buildMerged si (selectGeometry polyComb) with
        | some lobj => Except.ok { objs := [lobj], warnings := [] }
        | none => Except.ok { objs := [], warnings := [unhandledMsg (selectGeometry polyComb)] }

/-- The whole `for o, n, iou in matches` loop: concatenates the
per-correspondence contributions in order, propagating a raised
exception. -/
def combineAll (cfg : Config) (geo : GeoOps α) [Inhabited α] (si : Nat)
    (oldObjs newObjs : List LocatedObject) (spOld spNew : List α) :
    List Corr → Except String StepOut
  | [] => Except.ok { objs := [], warnings := [] }
  | c :: rest =>
      match combineOne cfg geo si oldObjs newObjs spOld spNew c with
      | Except.error e => Except.error e
      | Except.ok s =>
          match combineAll cfg geo si oldObjs newObjs spOld spNew rest with
          | Except.error e => Except.error e
          | Except.ok r =>
              Except.ok { objs := s.objs ++ r.objs, warnings := s.warnings ++ r.warnings }

/-- Processing of one record inside `_do_process`: the first record
seeds the accumulated annotation with (a deep copy of) its objects;
every later record increments the stream index, runs the matcher on the
converted polygons and replaces the accumulated annotation with the
combined list.  `getAbs` stands for the external
`item.get_absolute()`. -/
def processItem (cfg : Config) (geo : GeoOps α) [Inhabited α]
    (getAbs : β → List LocatedObject) (st : FilterState) (item : β) :
    Except String (FilterState × List String) :=
  match st.currentAnn with
  | none =>
      Except.ok ({ streamIndex := st.streamIndex, currentAnn := some (getAbs item) }, [])
  | some ann =>
      let si := st.streamIndex + 1
      let current := getAbs item
      let spOld := ann.map geo.toShapely
      let spNew := current.map geo.toShapely
      match combineAll cfg geo si ann current spOld spNew
          (find_matches cfg.min_iou geo.iouF spOld spNew) with
      | Except.error e => Except.error e
      | Except.ok out =>
          Except.ok ({ streamIndex := si, currentAnn := some out.objs }, out.warnings)

/-- `CombineAnnotations._do_process`: every record is appended to the
output stream before being folded into the accumulated annotation, and
the output is returned unchanged; a raised exception propagates and
discards the output.  Returns the final state, the forwarded records
and the emitted warnings. -/
def _do_process (cfg : Config) (geo : GeoOps α) [Inhabited α]
    (getAbs : β → List LocatedObject) :
    FilterState → List β → Except String (FilterState × List β × List String)
  | st, [] => Except.ok (st, [], [])
  | st, item :: rest =>
      match processItem cfg geo getAbs st item with
      | Except.error e => Except.error e
      | Except.ok (st1, w1) =>
          match _do_process cfg geo getAbs st1 rest with
          | Except.error e => Except.error e
          | Except.ok (st2, outs, ws) => Except.ok (st2, item :: outs, w1 ++ ws)

/-- The combination-mode validation of `CombineAnnotations.__init__`
(lines 43-45): an unknown combination raises, otherwise the
configuration is stored. -/
def CombineAnnotations.init (min_iou : ℚ) (combination : String) (output_file : String) :
    Except String Config :=
  if combination ∈ COMBINATIONS then
    Except.ok { min_iou := min_iou, combination := combination, output_file := output_file }
  else
    Except.error ("Unknown combination: " ++ combination)

/-- `CombineAnnotations.finalize`: when an accumulated annotation
exists, expand the output path, log an info message and write the
report; when no frame was ever seen, do nothing at all.  `expand`
stands for the external `session.expand_placeholders`. -/
def finalize (expand : String → String) (cfg : Config) (st : FilterState) : List Effect :=
  match st.currentAnn with
  | none => []
  | some ann =>
      let output_file := expand cfg.output_file
      [Effect.logInfo ("Writing combined annotations to: " ++ output_file),
       Effect.write output_file ann]

/-- Well-formedness of an entry committed by the matcher's double loop:
nonnegative indices, strictly positive IoU, IoU at or above the
threshold. -/
def ResOK (min_iou : ℚ) (c : Corr) : Prop :=
  0 ≤ c.o ∧ 0 ≤ c.n ∧ 0 < c.iou ∧ min_iou ≤ c.iou

/-- Visit order of the matcher's double loop on committed entries:
new index ascending, then old index ascending. -/
def corrLex (a b : Corr) : Prop := a.n < b.n ∨ (a.n = b.n ∧ a.o < b.o)

/-- Concrete sample object: a 10x10 square at the origin, no metadata. -/
def objA : LocatedObject :=
  { x := 0, y := 0, width := 10, height := 10
    polygon := [(0, 0), (10, 0), (10, 10), (0, 10)], metadata := [] }

/-- Concrete sample object standing for a later frame's detection. -/
def objB : LocatedObject :=
  { x := 100, y := 100, width := 5, height := 5
    polygon := [(100, 100), (105, 100), (105, 105), (100, 105)], metadata := [] }

/-- Intersection-mode configuration with the default threshold 0.7 and
the default output path of the argument parser. -/
def cfgI : Config :=
  { min_iou := mkRat 7 10, combination := INTERSECT, output_file := "./combined.report" }

/-- Trivial geometry collaborator: IoU constantly zero, so nothing ever
matches. -/
def geoZero : GeoOps Unit :=
  { toShapely := fun _ => (), iouF := fun _ _ => 0
    union2 := fun _ _ => Geometry.other "LineString"
    inter2 := fun _ _ => Geometry.other "LineString" }

/-- Square with fractional extent: (0,0)-(10.5,10.5). -/
def csHalf : List (ℚ × ℚ) :=
  [(0, 0), (mkRat 21 2, 0), (mkRat 21 2, mkRat 21 2), (0, mkRat 21 2)]

/-- Geometry collaborator whose combination operations return the
fractional square `csHalf`; IoU constantly 1. -/
def geoHalf : GeoOps Unit :=
  { toShapely := fun _ => (), iouF := fun _ _ => 1
    union2 := fun _ _ => Geometry.polygon csHalf
    inter2 := fun _ _ => Geometry.polygon csHalf }

/-- Triangle with integer coordinates. -/
def csTri : List (ℚ × ℚ) := [(0, 0), (2, 0), (0, 2)]

/-- Geometry collaborator whose combination operations return a
MultiPolygon whose second member is the only Polygon; IoU constantly 1. -/
def geoMulti : GeoOps Unit :=
  { toShapely := fun _ => (), iouF := fun _ _ => 1
    union2 := fun _ _ => Geometry.multiPolygon [Geometry.other "LineString", Geometry.polygon csTri]
    inter2 := fun _ _ => Geometry.multiPolygon [Geometry.other "LineString", Geometry.polygon csTri] }

end Imgvis

deriving instance DecidableEq for Except

namespace Imgvis

/-! ## Properties of the matcher -/

/-- `_find_matches` is definitionally the double-loop result followed by
the leftover-old entries and then the leftover-new entries. -/
theorem find_matches_parts (min_iou : ℚ) (f : α → α → ℚ) (old new : List α) :
    find_matches min_iou f old new =
      (matcherState min_iou f old new).result
        ++ (matcherState min_iou f old new).matchOld.map
            (fun o : Nat => { o := (o : Int), n := -1, iou := 0 })
        ++ (matcherState min_iou f old new).matchNew.map
            (fun nn : Nat => { o := -1, n := (nn : Int), iou := 0 }) := rfl

/-- Entries accumulated by the inner loop stay well-formed, below the
current visit position, and in visit order. -/
theorem findInner_inv (min_iou : ℚ) (f : α → α → ℚ) (pn : α) (n : Nat) :
    ∀ (l : List α) (o : Nat) (st : MatchState),
      (∀ c ∈ st.result, ResOK min_iou c ∧
        (c.n < (n : Int) ∨ (c.n = (n : Int) ∧ c.o < (o : Int)))) →
      List.Pairwise corrLex st.result →
      (∀ c ∈ (findInner min_iou f pn n l o st).result, ResOK min_iou c ∧
        (c.n < (n : Int) ∨ (c.n = (n : Int) ∧ c.o < ((o + l.length : Nat) : Int)))) ∧
      List.Pairwise corrLex (findInner min_iou f pn n l o st).result := by
  intro l
  induction l with
  | nil =>
      intro o st h hp
      simp only [findInner, List.length_nil, Nat.add_zero]
      exact ⟨h, hp⟩
  | cons po rest ih =>
      intro o st h hp
      simp only [findInner, List.length_cons]
      have harith : o + (rest.length + 1) = (o + 1) + rest.length := by omega
      rw [harith]
      by_cases h1 : 0 < f pn po
      · by_cases h2 : min_iou ≤ f pn po
        · rw [if_pos h1, if_pos h2]
          apply ih (o + 1)
          · intro c hc
            rcases List.mem_append.mp hc with hcl | hcr
            · rcases h c hcl with ⟨hok, hb⟩
              refine ⟨hok, ?_⟩
              rcases hb with hb | ⟨hbe, hbo⟩
              · exact Or.inl hb
              · exact Or.inr ⟨hbe, by omega⟩
            · have hc' : c = { o := (o : Int), n := (n : Int), iou := f pn po } := by
                simpa using hcr
              subst hc'
              exact ⟨⟨Int.natCast_nonneg o, Int.natCast_nonneg n, h1, h2⟩,
                Or.inr ⟨rfl, by show (o : Int) < ((o + 1 : Nat) : Int); omega⟩⟩
          · refine List.pairwise_append.mpr ⟨hp, List.pairwise_singleton _ _, ?_⟩
            intro a ha b hb
            have hb' : b = { o := (o : Int), n := (n : Int), iou := f pn po } := by
              simpa using hb
            subst hb'
            rcases (h a ha).2 with hbnd | ⟨hbe, hbo⟩
            · exact Or.inl hbnd
            · exact Or.inr ⟨hbe, hbo⟩
        · rw [if_pos h1, if_neg h2]
          apply ih (o + 1) st ?_ hp
          intro c hc
          rcases h c hc with ⟨hok, hb⟩
          refine ⟨hok, ?_⟩
          rcases hb with hb | ⟨hbe, hbo⟩
          · exact Or.inl hb
          · exact Or.inr ⟨hbe, by omega⟩
      · rw [if_neg h1]
        apply ih (o + 1) st ?_ hp
        intro c hc
        rcases h c hc with ⟨hok, hb⟩
        refine ⟨hok, ?_⟩
        rcases hb with hb | ⟨hbe, hbo⟩
        · exact Or.inl hb
        · exact Or.inr ⟨hbe, by omega⟩

/-- Entries accumulated by the outer loop stay well-formed, below the
current new index, and in visit order. -/
theorem findOuter_inv (min_iou : ℚ) (f : α → α → ℚ) (old : List α) :
    ∀ (l : List α) (n : Nat) (st : MatchState),
      (∀ c ∈ st.result, ResOK min_iou c ∧ c.n < (n : Int)) →
      List.Pairwise corrLex st.result →
      (∀ c ∈ (findOuter min_iou f old l n st).result, ResOK min_iou c ∧
          c.n < ((n + l.length : Nat) : Int)) ∧
      List.Pairwise corrLex (findOuter min_iou f old l n st).result := by
  intro l
  induction l with
  | nil =>
      intro n st h hp
      simp only [findOuter, List.length_nil, Nat.add_zero]
      exact ⟨h, hp⟩
  | cons pn rest ih =>
      intro n st h hp
      simp only [findOuter, List.length_cons]
      have harith : n + (rest.length + 1) = (n + 1) + rest.length := by omega
      rw [harith]
      have hin := findInner_inv min_iou f pn n old 0 st
        (fun c hc => ⟨(h c hc).1, Or.inl (h c hc).2⟩) hp
      apply ih (n + 1) _ ?_ hin.2
      intro c hc
      rcases hin.1 c hc with ⟨hok, hb⟩
      refine ⟨hok, ?_⟩
      rcases hb with hb | ⟨hbe, _⟩
      · omega
      · omega

/-- All entries of the double-loop result are well-formed and appear in
visit order. -/
theorem matcherState_result_ok (min_iou : ℚ) (f : α → α → ℚ) (old new : List α) :
    (∀ c ∈ (matcherState min_iou f old new).result, ResOK min_iou c) ∧
    List.Pairwise corrLex (matcherState min_iou f old new).result := by
  have h := findOuter_inv min_iou f old new 0
    { matchNew := List.range new.length, matchOld := List.range old.length, result := [] }
    (by intro c hc; simp at hc) List.Pairwise.nil
  exact ⟨fun c hc => (h.1 c hc).1, h.2⟩

/-- The inner loop preserves coverage: every index below the given
bound is still unmatched or already occurs in a committed entry. -/
theorem findInner_covers (min_iou : ℚ) (f : α → α → ℚ) (pn : α) (n : Nat) (mOld mNew : Nat) :
    ∀ (l : List α) (o : Nat) (st : MatchState),
      (∀ i, i < mOld → i ∈ st.matchOld ∨ ∃ c ∈ st.result, c.o = (i : Int)) →
      (∀ j, j < mNew → j ∈ st.matchNew ∨ ∃ c ∈ st.result, c.n = (j : Int)) →
      (∀ i, i < mOld → i ∈ (findInner min_iou f pn n l o st).matchOld ∨
          ∃ c ∈ (findInner min_iou f pn n l o st).result, c.o = (i : Int)) ∧
      (∀ j, j < mNew → j ∈ (findInner min_iou f pn n l o st).matchNew ∨
          ∃ c ∈ (findInner min_iou f pn n l o st).result, c.n = (j : Int)) := by
  intro l
  induction l with
  | nil =>
      intro o st ho hn
      simp only [findInner]
      exact ⟨ho, hn⟩
  | cons po rest ih =>
      intro o st ho hn
      simp only [findInner]
      by_cases h1 : 0 < f pn po
      · by_cases h2 : min_iou ≤ f pn po
        · rw [if_pos h1, if_pos h2]
          apply ih (o + 1)
          · intro i hi
            rcases ho i hi with hmem | ⟨c, hc, hco⟩
            · by_cases hio : i = o
              · subst hio
                exact Or.inr ⟨{ o := (i : Int), n := (n : Int), iou := f pn po },
                  List.mem_append_right _ (List.mem_singleton.mpr rfl), rfl⟩
              · exact Or.inl ((List.mem_erase_of_ne hio).mpr hmem)
            · exact Or.inr ⟨c, List.mem_append_left _ hc, hco⟩
          · intro j hj
            rcases hn j hj with hmem | ⟨c, hc, hcn⟩
            · by_cases hjn : j = n
              · subst hjn
                exact Or.inr ⟨{ o := (o : Int), n := (j : Int), iou := f pn po },
                  List.mem_append_right _ (List.mem_singleton.mpr rfl), rfl⟩
              · exact Or.inl ((List.mem_erase_of_ne hjn).mpr hmem)
            · exact Or.inr ⟨c, List.mem_append_left _ hc, hcn⟩
        · rw [if_pos h1, if_neg h2]
          exact ih (o + 1) st ho hn
      · rw [if_neg h1]
        exact ih (o + 1) st ho hn

/-- The outer loop preserves coverage. -/
theorem findOuter_covers (min_iou : ℚ) (f : α → α → ℚ) (old : List α) (mOld mNew : Nat) :
    ∀ (l : List α) (n : Nat) (st : MatchState),
      (∀ i, i < mOld → i ∈ st.matchOld ∨ ∃ c ∈ st.result, c.o = (i : Int)) →
      (∀ j, j < mNew → j ∈ st.matchNew ∨ ∃ c ∈ st.result, c.n = (j : Int)) →
      (∀ i, i < mOld → i ∈ (findOuter min_iou f old l n st).matchOld ∨
          ∃ c ∈ (findOuter min_iou f old l n st).result, c.o = (i : Int)) ∧
      (∀ j, j < mNew → j ∈ (findOuter min_iou f old l n st).matchNew ∨
          ∃ c ∈ (findOuter min_iou f old l n st).result, c.n = (j : Int)) := by
  intro l
  induction l with
  | nil =>
      intro n st ho hn
      simp only [findOuter]
      exact ⟨ho, hn⟩
  | cons pn rest ih =>
      intro n st ho hn
      simp only [findOuter]
      have hin := findInner_covers min_iou f pn n mOld mNew old 0 st ho hn
      exact ih (n + 1) _ hin.1 hin.2

/-- After the whole double loop, every old index and every new index is
still unmatched or occurs in a committed entry. -/
theorem matcherState_covers (min_iou : ℚ) (f : α → α → ℚ) (old new : List α) :
    (∀ i, i < old.length → i ∈ (matcherState min_iou f old new).matchOld ∨
        ∃ c ∈ (matcherState min_iou f old new).result, c.o = (i : Int)) ∧
    (∀ j, j < new.length → j ∈ (matcherState min_iou f old new).matchNew ∨
        ∃ c ∈ (matcherState min_iou f old new).result, c.n = (j : Int)) := by
  exact findOuter_covers min_iou f old old.length new.length new 0
    { matchNew := List.range new.length, matchOld := List.range old.length, result := [] }
    (fun i hi => Or.inl (List.mem_range.mpr hi))
    (fun j hj => Or.inl (List.mem_range.mpr hj))

/-- The inner loop only shrinks the unmatched sets. -/
theorem findInner_sublist (min_iou : ℚ) (f : α → α → ℚ) (pn : α) (n : Nat) :
    ∀ (l : List α) (o : Nat) (st : MatchState),
      List.Sublist (findInner min_iou f pn n l o st).matchOld st.matchOld ∧
      List.Sublist (findInner min_iou f pn n l o st).matchNew st.matchNew := by
  intro l
  induction l with
  | nil =>
      intro o st
      simp only [findInner]
      exact ⟨List.Sublist.refl _, List.Sublist.refl _⟩
  | cons po rest ih =>
      intro o st
      simp only [findInner]
      by_cases h1 : 0 < f pn po
      · by_cases h2 : min_iou ≤ f pn po
        · rw [if_pos h1, if_pos h2]
          refine ⟨(ih (o + 1) _).1.trans ?_, (ih (o + 1) _).2.trans ?_⟩
          · exact List.erase_sublist _ _
          · exact List.erase_sublist _ _
        · rw [if_pos h1, if_neg h2]
          exact ih (o + 1) st
      · rw [if_neg h1]
        exact ih (o + 1) st

/-- The outer loop only shrinks the unmatched sets. -/
theorem findOuter_sublist (min_iou : ℚ) (f : α → α → ℚ) (old : List α) :
    ∀ (l : List α) (n : Nat) (st : MatchState),
      List.Sublist (findOuter min_iou f old l n st).matchOld st.matchOld ∧
      List.Sublist (findOuter min_iou f old l n st).matchNew st.matchNew := by
  intro l
  induction l with
  | nil =>
      intro n st
      simp only [findOuter]
      exact ⟨List.Sublist.refl _, List.Sublist.refl _⟩
  | cons pn rest ih =>
      intro n st
      simp only [findOuter]
      have hin := findInner_sublist min_iou f pn n old 0 st
      exact ⟨(ih (n + 1) _).1.trans hin.1, (ih (n + 1) _).2.trans hin.2⟩

/-- The leftover unmatched sets are sublists of the initial index
ranges, hence in ascending (original) index order. -/
theorem matcherState_sublist (min_iou : ℚ) (f : α → α → ℚ) (old new : List α) :
    List.Sublist (matcherState min_iou f old new).matchOld (List.range old.length) ∧
    List.Sublist (matcherState min_iou f old new).matchNew (List.range new.length) :=
  findOuter_sublist min_iou f old new 0
    { matchNew := List.range new.length, matchOld := List.range old.length, result := [] }

/-- Pairs whose IoU lies strictly between 0 and the threshold can be
replaced by IoU 0 without changing the inner loop at all. -/
theorem findInner_congr (min_iou : ℚ) (f g : α → α → ℚ)
    (hg : ∀ a b, (0 < f a b ∧ f a b < min_iou → g a b = 0) ∧
                 (¬(0 < f a b ∧ f a b < min_iou) → g a b = f a b))
    (pn : α) (n : Nat) :
    ∀ (l : List α) (o : Nat) (st : MatchState),
      findInner min_iou g pn n l o st = findInner min_iou f pn n l o st := by
  intro l
  induction l with
  | nil => intro o st; simp only [findInner]
  | cons po rest ih =>
      intro o st
      simp only [findInner]
      by_cases hc : 0 < f pn po ∧ f pn po < min_iou
      · have hg0 : g pn po = 0 := (hg pn po).1 hc
        rw [hg0, if_neg (lt_irrefl 0), if_pos hc.1, if_neg (not_le.mpr hc.2)]
        exact ih (o + 1) st
      · have hgf : g pn po = f pn po := (hg pn po).2 hc
        rw [hgf]
        exact ih (o + 1) _

/-- Pairs whose IoU lies strictly between 0 and the threshold can be
replaced by IoU 0 without changing the outer loop at all. -/
theorem findOuter_congr (min_iou : ℚ) (f g : α → α → ℚ)
    (hg : ∀ a b, (0 < f a b ∧ f a b < min_iou → g a b = 0) ∧
                 (¬(0 < f a b ∧ f a b < min_iou) → g a b = f a b))
    (old : List α) :
    ∀ (l : List α) (n : Nat) (st : MatchState),
      findOuter min_iou g old l n st = findOuter min_iou f old l n st := by
  intro l
  induction l with
  | nil => intro n st; simp only [findOuter]
  | cons pn rest ih =>
      intro n st
      simp only [findOuter]
      rw [findInner_congr min_iou f g hg pn n old 0 st]
      exact ih (n + 1) _

/-! ## Properties of the combining loop -/

/-- The combining loop distributes over list concatenation when both
halves succeed. -/
theorem combineAll_append_ok (cfg : Config) (geo : GeoOps α) [Inhabited α] (si : Nat)
    (oldObjs newObjs : List LocatedObject) (spOld spNew : List α) (xs ys : List Corr)
    (a b : StepOut)
    (ha : combineAll cfg geo si oldObjs newObjs spOld spNew xs = Except.ok a)
    (hb : combineAll cfg geo si oldObjs newObjs spOld spNew ys = Except.ok b) :
    combineAll cfg geo si oldObjs newObjs spOld spNew (xs ++ ys) =
      Except.ok { objs := a.objs ++ b.objs, warnings := a.warnings ++ b.warnings } := by
  induction xs generalizing a with
  | nil =>
      simp only [combineAll, Except.ok.injEq] at ha
      subst ha
      simpa using hb
  | cons c xs ih =>
      simp only [combineAll] at ha
      simp only [List.cons_append, combineAll, List.append_eq]
      cases hc : combineOne cfg geo si oldObjs newObjs spOld spNew c with
      | error e =>
          simp only [hc] at ha
          exact Except.noConfusion ha
      | ok s =>
          simp only [hc] at ha
          cases hx : combineAll cfg geo si oldObjs newObjs spOld spNew xs with
          | error e =>
              simp only [hx] at ha
              exact Except.noConfusion ha
          | ok a1 =>
              simp only [hx, Except.ok.injEq] at ha
              subst ha
              simp only [ih a1 hx, List.append_assoc]

/-- An old-only tail combines to the old objects at those indices,
passing them through unchanged and in order. -/
theorem combineAll_old_map (cfg : Config) (geo : GeoOps α) [Inhabited α] (si : Nat)
    (oldObjs newObjs : List LocatedObject) (spOld spNew : List α) (l : List Nat) :
    combineAll cfg geo si oldObjs newObjs spOld spNew
        (l.map (fun o : Nat => { o := (o : Int), n := -1, iou := 0 })) =
      Except.ok { objs := l.map (fun o => oldObjs.getD o default), warnings := [] } := by
  induction l with
  | nil => rfl
  | cons o l ih =>
      simp only [List.map_cons, combineAll]
      have hone : combineOne cfg geo si oldObjs newObjs spOld spNew
          { o := (o : Int), n := -1, iou := 0 } =
          Except.ok { objs := [oldObjs.getD o default], warnings := [] } := by
        simp [combineOne]
      simp only [hone, ih, List.map_cons, List.singleton_append, List.nil_append]

/-- A new-only tail combines to the new objects at those indices,
passing them through unchanged and in order. -/
theorem combineAll_new_map (cfg : Config) (geo : GeoOps α) [Inhabited α] (si : Nat)
    (oldObjs newObjs : List LocatedObject) (spOld spNew : List α) (l : List Nat) :
    combineAll cfg geo si oldObjs newObjs spOld spNew
        (l.map (fun nn : Nat => { o := -1, n := (nn : Int), iou := 0 })) =
      Except.ok { objs := l.map (fun nn => newObjs.getD nn default), warnings := [] } := by
  induction l with
  | nil => rfl
  | cons nn l ih =>
      simp only [List.map_cons, combineAll]
      have hone : combineOne cfg geo si oldObjs newObjs spOld spNew
          { o := -1, n := (nn : Int), iou := 0 } =
          Except.ok { objs := [newObjs.getD nn default], warnings := [] } := by
        simp [combineOne]
      simp only [hone, ih, List.map_cons, List.singleton_append, List.nil_append]

/-- With a recognized combination mode, choosing the combination
operation never raises. -/
theorem combineGeom_ok (cfg : Config) (hcomb : cfg.combination ∈ COMBINATIONS)
    (geo : GeoOps α) (pn po : α) :
    ∃ g, combineGeom cfg geo pn po = Except.ok g := by
  have hmode : cfg.combination = UNION ∨ cfg.combination = INTERSECT := by
    simpa [COMBINATIONS] using hcomb
  unfold combineGeom
  rcases hmode with h | h
  · rw [if_pos h]; exact ⟨_, rfl⟩
  · rw [h, if_neg (by decide : ¬(INTERSECT = UNION)), if_pos rfl]; exact ⟨_, rfl⟩

/-- With a recognized combination mode, processing one correspondence
never raises. -/
theorem combineOne_ok (cfg : Config) (hcomb : cfg.combination ∈ COMBINATIONS)
    (geo : GeoOps α) [Inhabited α] (si : Nat)
    (oldObjs newObjs : List LocatedObject) (spOld spNew : List α) (c : Corr) :
    ∃ s, combineOne cfg geo si oldObjs newObjs spOld spNew c = Except.ok s := by
  unfold combineOne
  by_cases h1 : c.o = -1
  · rw [if_pos h1]; exact ⟨_, rfl⟩
  · rw [if_neg h1]
    by_cases h2 : c.n = -1
    · rw [if_pos h2]; exact ⟨_, rfl⟩
    · rw [if_neg h2]
      rcases combineGeom_ok cfg hcomb geo (spNew.getD c.n.toNat default)
        (spOld.getD c.o.toNat default) with ⟨g, hgE⟩
      simp only [hgE]
      cases hb : buildMerged si (selectGeometry g) with
      | some lobj => exact ⟨_, rfl⟩
      | none => exact ⟨_, rfl⟩

/-- With a recognized combination mode, the whole combining loop never
raises. -/
theorem combineAll_ok (cfg : Config) (hcomb : cfg.combination ∈ COMBINATIONS)
    (geo : GeoOps α) [Inhabited α] (si : Nat)
    (oldObjs newObjs : List LocatedObject) (spOld spNew : List α) (ms : List Corr) :
    ∃ s, combineAll cfg geo si oldObjs newObjs spOld spNew ms = Except.ok s := by
  induction ms with
  | nil => exact ⟨_, rfl⟩
  | cons c rest ih =>
      simp only [combineAll]
      rcases combineOne_ok cfg hcomb geo si oldObjs newObjs spOld spNew c with ⟨s, hs⟩
      rcases ih with ⟨r, hr⟩
      simp only [hs, hr]
      exact ⟨_, rfl⟩

/-- With a recognized combination mode, processing one record never
raises. -/
theorem processItem_ok (cfg : Config) (hcomb : cfg.combination ∈ COMBINATIONS)
    (geo : GeoOps α) [Inhabited α] (getAbs : β → List LocatedObject)
    (st : FilterState) (item : β) :
    ∃ r, processItem cfg geo getAbs st item = Except.ok r := by
  obtain ⟨sidx, ann⟩ := st
  cases ann with
  | none => exact ⟨_, rfl⟩
  | some ann =>
      simp only [processItem]
      rcases combineAll_ok cfg hcomb geo (sidx + 1) ann (getAbs item)
        (ann.map geo.toShapely) ((getAbs item).map geo.toShapely)
        (find_matches cfg.min_iou geo.iouF (ann.map geo.toShapely)
          ((getAbs item).map geo.toShapely)) with ⟨out, hout⟩
      simp only [hout]
      exact ⟨_, rfl⟩

/-- With a recognized combination mode, `_do_process` never raises. -/
theorem do_process_ok (cfg : Config) (hcomb : cfg.combination ∈ COMBINATIONS)
    (geo : GeoOps α) [Inhabited α] (getAbs : β → List LocatedObject)
    (st : FilterState) (items : List β) :
    ∃ r, _do_process cfg geo getAbs st items = Except.ok r := by
  induction items generalizing st with
  | nil => exact ⟨_, rfl⟩
  | cons item rest ih =>
      simp only [_do_process]
      rcases processItem_ok cfg hcomb geo getAbs st item with ⟨⟨st1, w1⟩, h1⟩
      rcases ih st1 with ⟨⟨st2, outs, ws⟩, h2⟩
      simp only [h1, h2]
      exact ⟨_, rfl⟩

/-- Folding `min` over nonnegative rationals from a nonnegative start
stays nonnegative. -/
theorem foldl_min_nonneg (l : List ℚ) (q : ℚ) (hq : 0 ≤ q) (h : ∀ x ∈ l, 0 ≤ x) :
    0 ≤ l.foldl min q := by
  induction l generalizing q with
  | nil => exact hq
  | cons x xs ih =>
      exact ih (min q x) (le_min hq (h x (by simp))) (fun y hy => h y (by simp [hy]))

/-- Folding `max` from a nonnegative start stays nonnegative. -/
theorem foldl_max_nonneg (l : List ℚ) (q : ℚ) (hq : 0 ≤ q) :
    0 ≤ l.foldl max q := by
  induction l generalizing q with
  | nil => exact hq
  | cons x xs ih => exact ih (max q x) (le_trans hq (le_max_left q x))

/-- The minimum of a list of nonnegative rationals is nonnegative. -/
theorem qmin_nonneg (l : List ℚ) (h : ∀ x ∈ l, 0 ≤ x) : 0 ≤ qmin l := by
  cases l with
  | nil => simp [qmin]
  | cons q xs =>
      exact foldl_min_nonneg xs q (h q (by simp)) (fun y hy => h y (by simp [hy]))

/-- The maximum of a list of nonnegative rationals is nonnegative. -/
theorem qmax_nonneg (l : List ℚ) (h : ∀ x ∈ l, 0 ≤ x) : 0 ≤ qmax l := by
  cases l with
  | nil => simp [qmax]
  | cons q xs => exact foldl_max_nonneg xs q (h q (by simp))

/-- Python `int()` agrees with the floor on nonnegative values. -/
theorem pyInt_of_nonneg (q : ℚ) (h : 0 ≤ q) : pyInt q = ⌊q⌋ := if_pos h

/-! ## The claims -/

/-- C1, counterexample: with one old polygon, two new polygons, all
pairs at IoU 1 and threshold 0.7, `_find_matches` commits two matched
correspondences that both contain old index 0 (the matcher never checks
that the indices are still unmatched before committing), so an old
index occurs in more than one correspondence — refuting the claim. -/
theorem C1_counterexample :
    find_matches (mkRat 7 10) (fun _ _ : Unit => (1 : ℚ)) [()] [(), ()] =
      [{ o := 0, n := 0, iou := 1 }, { o := 0, n := 1, iou := 1 }] ∧
    ¬((find_matches (mkRat 7 10) (fun _ _ : Unit => (1 : ℚ)) [()] [(), ()]).countP
        (fun c => c.o == 0) ≤ 1) :=
  ⟨by decide, by decide⟩

/-- C1 (amended): the Matcher's output covers every old index and every
new index at least once — each leftover index yields exactly one
unmatched correspondence, but a matched correspondence is committed for
every visited pair at or above the threshold even when one of its
indices was already matched, so an index can occur in several matched
correspondences and exactly-once coverage fails. -/
theorem C1_coverage (min_iou : ℚ) (f : α → α → ℚ) (old new : List α) (o n : Nat)
    (ho : o < old.length) (hn : n < new.length) :
    (∃ c ∈ find_matches min_iou f old new, c.o = (o : Int)) ∧
    (∃ c ∈ find_matches min_iou f old new, c.n = (n : Int)) := by
  constructor
  · rcases (matcherState_covers min_iou f old new).1 o ho with hmem | ⟨c, hc, hco⟩
    · refine ⟨{ o := (o : Int), n := -1, iou := 0 }, ?_, rfl⟩
      rw [find_matches_parts]
      exact List.mem_append_left _ (List.mem_append_right _ (List.mem_map.mpr ⟨o, hmem, rfl⟩))
    · exact ⟨c, by
        rw [find_matches_parts]
        exact List.mem_append_left _ (List.mem_append_left _ hc), hco⟩
  · rcases (matcherState_covers min_iou f old new).2 n hn with hmem | ⟨c, hc, hcn⟩
    · refine ⟨{ o := -1, n := (n : Int), iou := 0 }, ?_, rfl⟩
      rw [find_matches_parts]
      exact List.mem_append_right _ (List.mem_map.mpr ⟨n, hmem, rfl⟩)
    · exact ⟨c, by
        rw [find_matches_parts]
        exact List.mem_append_left _ (List.mem_append_left _ hc), hcn⟩

/-- Witness for `C1_coverage` at a concrete input. -/
theorem C1_coverage_witness :
    (∃ c ∈ find_matches (mkRat 7 10) (fun _ _ : Unit => (0 : ℚ)) [(), ()] [()],
        c.o = ((1 : Nat) : Int)) ∧
    (∃ c ∈ find_matches (mkRat 7 10) (fun _ _ : Unit => (0 : ℚ)) [(), ()] [()],
        c.n = ((0 : Nat) : Int)) :=
  C1_coverage (mkRat 7 10) (fun _ _ : Unit => (0 : ℚ)) [(), ()] [()] 1 0
    (by decide) (by decide)

/-- C2, counterexample: with no overlap, the second frame's object is
passed through as a new-only object completely unchanged — its metadata
does not contain the stream-index key at all, refuting the claim that
the key is always present on new-only objects with the current stream
index. -/
theorem C2_counterexample :
    processItem cfgI geoZero id { streamIndex := 0, currentAnn := some [objA] } [objB] =
      Except.ok ({ streamIndex := 1, currentAnn := some [objA, objB] }, []) ∧
    List.lookup STREAM_INDEX objB.metadata = none :=
  ⟨by decide, by decide⟩

/-- C2 (amended): an unmatched new-only correspondence passes the new
object into the combined set completely unchanged — no stream-index
metadata is added (the stream-index key is set only on merged
objects). -/
theorem C2_amended (cfg : Config) (geo : GeoOps α) [Inhabited α] (si : Nat)
    (oldObjs newObjs : List LocatedObject) (spOld spNew : List α) (n : Nat) (iou : ℚ) :
    combineOne cfg geo si oldObjs newObjs spOld spNew { o := -1, n := (n : Int), iou := iou } =
      Except.ok { objs := [newObjs.getD n default], warnings := [] } := by
  simp [combineOne]

/-- Witness for `C2_amended` at a concrete input. -/
theorem C2_amended_witness :
    combineOne cfgI geoZero 1 [objA] [objB] [()] [()]
        { o := -1, n := ((0 : Nat) : Int), iou := 0 } =
      Except.ok { objs := [[objB].getD 0 default], warnings := [] } :=
  C2_amended cfgI geoZero 1 [objA] [objB] [()] [()] 0 0

/-- C3, counterexample: a matched pair whose intersection is the
fractional square `csHalf` (maximal extent 10.5 in both axes) yields a
merged bounding box whose maximal x coordinate (x + width - 1) is the
truncation 10, while the ceiling of the maximal extent is 11 — the
maxima are truncated with `int()`, not ceiled, refuting the claim. -/
theorem C3_counterexample :
    combineOne cfgI geoHalf 1 [objA] [objB] [()] [()] { o := 0, n := 0, iou := 1 } =
      Except.ok { objs := [mergedObject 1 csHalf], warnings := [] } ∧
    (mergedObject 1 csHalf).x + (mergedObject 1 csHalf).width - 1 = 10 ∧
    qmax (csHalf.map Prod.fst) = mkRat 21 2 ∧
    (⌈(mkRat 21 2 : ℚ)⌉ : Int) = 11 :=
  ⟨by decide, by decide, by decide, by decide⟩

/-- C3 (amended): for a matched pair whose combination (after the
first-polygon selection) yields a simple polygon with nonnegative
coordinates, the merged object's bounding box applies `int()`
truncation (that is, the floor) to all four coordinate extents — the
maxima included, instead of the claimed ceiling — and its metadata is
exactly the current stream index, overwriting any stream index carried
by either input object. -/
theorem C3_amended (cfg : Config) (geo : GeoOps α) [Inhabited α] (si : Nat)
    (oldObjs newObjs : List LocatedObject) (spOld spNew : List α) (o n : Nat) (iou : ℚ)
    (g : Geometry) (cs : List (ℚ × ℚ))
    (hres : combineGeom cfg geo (spNew.getD n default) (spOld.getD o default) = Except.ok g)
    (hsel : selectGeometry g = Geometry.polygon cs)
    (hcs : ∀ p ∈ cs, 0 ≤ p.1 ∧ 0 ≤ p.2) :
    combineOne cfg geo si oldObjs newObjs spOld spNew
        { o := (o : Int), n := (n : Int), iou := iou } =
      Except.ok { objs := [mergedObject si cs], warnings := [] } ∧
    (mergedObject si cs).x = ⌊qmin (cs.map Prod.fst)⌋ ∧
    (mergedObject si cs).y = ⌊qmin (cs.map Prod.snd)⌋ ∧
    (mergedObject si cs).x + (mergedObject si cs).width - 1 = ⌊qmax (cs.map Prod.fst)⌋ ∧
    (mergedObject si cs).y + (mergedObject si cs).height - 1 = ⌊qmax (cs.map Prod.snd)⌋ ∧
    (mergedObject si cs).metadata = [(STREAM_INDEX, si)] := by
  have hxs : ∀ x ∈ cs.map Prod.fst, 0 ≤ x := by
    intro x hx
    rcases List.mem_map.mp hx with ⟨p, hp, rfl⟩
    exact (hcs p hp).1
  have hys : ∀ y ∈ cs.map Prod.snd, 0 ≤ y := by
    intro y hy
    rcases List.mem_map.mp hy with ⟨p, hp, rfl⟩
    exact (hcs p hp).2
  have hminx := pyInt_of_nonneg _ (qmin_nonneg _ hxs)
  have hminy := pyInt_of_nonneg _ (qmin_nonneg _ hys)
  have hmaxx := pyInt_of_nonneg _ (qmax_nonneg _ hxs)
  have hmaxy := pyInt_of_nonneg _ (qmax_nonneg _ hys)
  have hres2 := hres
  simp only [List.getD_eq_getElem?_getD] at hres2
  refine ⟨?_, hminx, hminy, ?_, ?_, rfl⟩
  · simp [combineOne, hres2, hsel, buildMerged]
  · show pyInt (qmin (cs.map Prod.fst)) +
        (pyInt (qmax (cs.map Prod.fst)) - pyInt (qmin (cs.map Prod.fst)) + 1) - 1 =
        ⌊qmax (cs.map Prod.fst)⌋
    omega
  · show pyInt (qmin (cs.map Prod.snd)) +
        (pyInt (qmax (cs.map Prod.snd)) - pyInt (qmin (cs.map Prod.snd)) + 1) - 1 =
        ⌊qmax (cs.map Prod.snd)⌋
    omega

/-- Witness for `C3_amended` at a concrete input. -/
theorem C3_amended_witness :
    combineOne cfgI geoMulti 2 [objA] [objB] [()] [()]
        { o := ((0 : Nat) : Int), n := ((0 : Nat) : Int), iou := 1 } =
      Except.ok { objs := [mergedObject 2 csTri], warnings := [] } ∧
    (mergedObject 2 csTri).x = ⌊qmin (csTri.map Prod.fst)⌋ ∧
    (mergedObject 2 csTri).y = ⌊qmin (csTri.map Prod.snd)⌋ ∧
    (mergedObject 2 csTri).x + (mergedObject 2 csTri).width - 1 =
      ⌊qmax (csTri.map Prod.fst)⌋ ∧
    (mergedObject 2 csTri).y + (mergedObject 2 csTri).height - 1 =
      ⌊qmax (csTri.map Prod.snd)⌋ ∧
    (mergedObject 2 csTri).metadata = [(STREAM_INDEX, 2)] :=
  C3_amended cfgI geoMulti 2 [objA] [objB] [()] [()] 0 0 1
    (Geometry.multiPolygon [Geometry.other "LineString", Geometry.polygon csTri]) csTri
    rfl rfl (by decide)

/-- C4: the threshold gate — every matched correspondence of
`_find_matches` has IoU at or above `min_iou`, and pairs with IoU
strictly between 0 and the threshold contribute nothing: replacing
their IoU by 0 leaves the matcher's output unchanged (no
correspondence, no partial merge, no veto on other pairs, no effect on
unmatched entries). -/
theorem C4_threshold_gate (min_iou : ℚ) (f g : α → α → ℚ) (old new : List α)
    (hg : ∀ a b, (0 < f a b ∧ f a b < min_iou → g a b = 0) ∧
                 (¬(0 < f a b ∧ f a b < min_iou) → g a b = f a b)) :
    (∀ c ∈ find_matches min_iou f old new, c.o ≠ -1 → c.n ≠ -1 → min_iou ≤ c.iou) ∧
    find_matches min_iou g old new = find_matches min_iou f old new := by
  constructor
  · intro c hc hco hcn
    rw [find_matches_parts] at hc
    rcases List.mem_append.mp hc with hc1 | hc2
    · rcases List.mem_append.mp hc1 with hc0 | hcold
      · exact ((matcherState_result_ok min_iou f old new).1 c hc0).2.2.2
      · rcases List.mem_map.mp hcold with ⟨o, _, rfl⟩
        simp at hcn
    · rcases List.mem_map.mp hc2 with ⟨nn, _, rfl⟩
      simp at hco
  · have hms : matcherState min_iou g old new = matcherState min_iou f old new :=
      findOuter_congr min_iou f g hg old new 0 _
    rw [find_matches_parts min_iou g old new, find_matches_parts min_iou f old new, hms]

/-- Witness for `C4_threshold_gate` at a concrete input. -/
theorem C4_threshold_gate_witness :
    (∀ c ∈ find_matches (mkRat 7 10) (fun _ _ : Unit => mkRat 3 5) [()] [()],
        c.o ≠ -1 → c.n ≠ -1 → mkRat 7 10 ≤ c.iou) ∧
    find_matches (mkRat 7 10) (fun _ _ : Unit => (0 : ℚ)) [()] [()] =
      find_matches (mkRat 7 10) (fun _ _ : Unit => mkRat 3 5) [()] [()] :=
  C4_threshold_gate (mkRat 7 10) (fun _ _ : Unit => mkRat 3 5) (fun _ _ : Unit => (0 : ℚ))
    [()] [()]
    (fun _ _ => ⟨fun _ => rfl,
      fun h => absurd ⟨by show (0 : ℚ) < mkRat 3 5; decide,
        by show mkRat 3 5 < mkRat 7 10; decide⟩ h⟩)

/-- C5: when the combination of a matched pair returns a MultiPolygon
or GeometryCollection, the first member that is a Polygon (in
enumeration order) is selected and merged; when no member qualifies the
pair contributes no object to the combined set (neither input
survives), exactly one diagnostic warning is emitted, and the loop
continues over the remaining correspondences without raising. -/
theorem C5_first_polygon_or_drop (cfg : Config) (geo : GeoOps α) [Inhabited α] (si : Nat)
    (oldObjs newObjs : List LocatedObject) (spOld spNew : List α)
    (o n : Nat) (iou : ℚ) (g : Geometry) (gs : List Geometry)
    (hres : combineGeom cfg geo (spNew.getD n default) (spOld.getD o default) = Except.ok g)
    (hcoll : g = Geometry.multiPolygon gs ∨ g = Geometry.geometryCollection gs) :
    (∀ cs, gs.find? isPolyB = some (Geometry.polygon cs) →
      combineOne cfg geo si oldObjs newObjs spOld spNew
          { o := (o : Int), n := (n : Int), iou := iou } =
        Except.ok { objs := [mergedObject si cs], warnings := [] }) ∧
    (gs.find? isPolyB = none →
      combineOne cfg geo si oldObjs newObjs spOld spNew
          { o := (o : Int), n := (n : Int), iou := iou } =
        Except.ok { objs := [], warnings := [unhandledMsg g] }) ∧
    (gs.find? isPolyB = none → ∀ rest,
      combineAll cfg geo si oldObjs newObjs spOld spNew
          ({ o := (o : Int), n := (n : Int), iou := iou } :: rest) =
        (combineAll cfg geo si oldObjs newObjs spOld spNew rest).map
          (fun b => { objs := b.objs, warnings := unhandledMsg g :: b.warnings })) := by
  have hone : combineOne cfg geo si oldObjs newObjs spOld spNew
      { o := (o : Int), n := (n : Int), iou := iou } =
      match buildMerged si (selectGeometry g) with
      | some lobj => Except.ok { objs := [lobj], warnings := [] }
      | none => Except.ok { objs := [], warnings := [unhandledMsg (selectGeometry g)] } := by
    have hres2 := hres
    simp only [List.getD_eq_getElem?_getD] at hres2
    simp [combineOne, hres2]
  have hdrop : gs.find? isPolyB = none →
      combineOne cfg geo si oldObjs newObjs spOld spNew
          { o := (o : Int), n := (n : Int), iou := iou } =
        Except.ok { objs := [], warnings := [unhandledMsg g] } := by
    intro hfind
    have hselg : selectGeometry g = g := by
      rcases hcoll with rfl | rfl <;> simp [selectGeometry, hfind]
    have hbm : buildMerged si g = none := by
      rcases hcoll with rfl | rfl <;> rfl
    rw [hone, hselg, hbm]
  refine ⟨?_, hdrop, ?_⟩
  · intro cs hfind
    have hselg : selectGeometry g = Geometry.polygon cs := by
      rcases hcoll with rfl | rfl <;> simp [selectGeometry, hfind]
    rw [hone, hselg]
    rfl
  · intro hfind rest
    simp only [combineAll, hdrop hfind]
    cases hrest : combineAll cfg geo si oldObjs newObjs spOld spNew rest with
    | error e => rfl
    | ok b => simp [Except.map]

/-- Witness for `C5_first_polygon_or_drop` at a concrete input. -/
theorem C5_first_polygon_or_drop_witness :
    combineOne cfgI geoMulti 3 [] [] [()] [()]
        { o := ((0 : Nat) : Int), n := ((0 : Nat) : Int), iou := 1 } =
      Except.ok { objs := [mergedObject 3 csTri], warnings := [] } :=
  (C5_first_polygon_or_drop cfgI geoMulti 3 [] [] [()] [()] 0 0 1
    (Geometry.multiPolygon [Geometry.other "LineString", Geometry.polygon csTri])
    [Geometry.other "LineString", Geometry.polygon csTri]
    rfl (Or.inl rfl)).1 csTri rfl

/-- C6: the combined set is ordered as all matched-merge results first
(in the matcher's visit order), then all old-only passthroughs, then
all new-only passthroughs, the latter two in ascending original index
order (sublists of the index ranges). -/
theorem C6_combined_order (cfg : Config) (geo : GeoOps α) [Inhabited α]
    (hcomb : cfg.combination ∈ COMBINATIONS) (si : Nat)
    (oldObjs newObjs : List LocatedObject) (spOld spNew : List α)
    (hlo : spOld.length = oldObjs.length) (hln : spNew.length = newObjs.length) :
    find_matches cfg.min_iou geo.iouF spOld spNew =
      (matcherState cfg.min_iou geo.iouF spOld spNew).result
        ++ (matcherState cfg.min_iou geo.iouF spOld spNew).matchOld.map
            (fun o : Nat => { o := (o : Int), n := -1, iou := 0 })
        ++ (matcherState cfg.min_iou geo.iouF spOld spNew).matchNew.map
            (fun nn : Nat => { o := -1, n := (nn : Int), iou := 0 }) ∧
    (∀ c ∈ (matcherState cfg.min_iou geo.iouF spOld spNew).result, 0 ≤ c.o ∧ 0 ≤ c.n) ∧
    List.Pairwise corrLex (matcherState cfg.min_iou geo.iouF spOld spNew).result ∧
    List.Sublist (matcherState cfg.min_iou geo.iouF spOld spNew).matchOld
      (List.range oldObjs.length) ∧
    List.Sublist (matcherState cfg.min_iou geo.iouF spOld spNew).matchNew
      (List.range newObjs.length) ∧
    ∃ merged : StepOut,
      combineAll cfg geo si oldObjs newObjs spOld spNew
          (matcherState cfg.min_iou geo.iouF spOld spNew).result = Except.ok merged ∧
      combineAll cfg geo si oldObjs newObjs spOld spNew
          (find_matches cfg.min_iou geo.iouF spOld spNew) =
        Except.ok { objs := (merged.objs
            ++ (matcherState cfg.min_iou geo.iouF spOld spNew).matchOld.map
              (fun o => oldObjs.getD o default)
            ++ (matcherState cfg.min_iou geo.iouF spOld spNew).matchNew.map
              (fun nn => newObjs.getD nn default)), warnings := merged.warnings } := by
  refine ⟨find_matches_parts _ _ _ _,
    fun c hc => ⟨((matcherState_result_ok cfg.min_iou geo.iouF spOld spNew).1 c hc).1,
      ((matcherState_result_ok cfg.min_iou geo.iouF spOld spNew).1 c hc).2.1⟩,
    (matcherState_result_ok cfg.min_iou geo.iouF spOld spNew).2,
    hlo ▸ (matcherState_sublist cfg.min_iou geo.iouF spOld spNew).1,
    hln ▸ (matcherState_sublist cfg.min_iou geo.iouF spOld spNew).2, ?_⟩
  rcases combineAll_ok cfg hcomb geo si oldObjs newObjs spOld spNew
    (matcherState cfg.min_iou geo.iouF spOld spNew).result with ⟨merged, hmerged⟩
  refine ⟨merged, hmerged, ?_⟩
  rw [find_matches_parts]
  have hB := combineAll_old_map cfg geo si oldObjs newObjs spOld spNew
    (matcherState cfg.min_iou geo.iouF spOld spNew).matchOld
  have hC := combineAll_new_map cfg geo si oldObjs newObjs spOld spNew
    (matcherState cfg.min_iou geo.iouF spOld spNew).matchNew
  have hAB := combineAll_append_ok cfg geo si oldObjs newObjs spOld spNew _ _ _ _ hmerged hB
  have hABC := combineAll_append_ok cfg geo si oldObjs newObjs spOld spNew _ _ _ _ hAB hC
  simpa using hABC

/-- Witness for `C6_combined_order` at a concrete input. -/
theorem C6_combined_order_witness :
    find_matches cfgI.min_iou geoZero.iouF [()] [()] =
      (matcherState cfgI.min_iou geoZero.iouF [()] [()]).result
        ++ (matcherState cfgI.min_iou geoZero.iouF [()] [()]).matchOld.map
            (fun o : Nat => { o := (o : Int), n := -1, iou := 0 })
        ++ (matcherState cfgI.min_iou geoZero.iouF [()] [()]).matchNew.map
            (fun nn : Nat => { o := -1, n := (nn : Int), iou := 0 }) ∧
    (∀ c ∈ (matcherState cfgI.min_iou geoZero.iouF [()] [()]).result, 0 ≤ c.o ∧ 0 ≤ c.n) ∧
    List.Pairwise corrLex (matcherState cfgI.min_iou geoZero.iouF [()] [()]).result ∧
    List.Sublist (matcherState cfgI.min_iou geoZero.iouF [()] [()]).matchOld
      (List.range [objA].length) ∧
    List.Sublist (matcherState cfgI.min_iou geoZero.iouF [()] [()]).matchNew
      (List.range [objB].length) ∧
    ∃ merged : StepOut,
      combineAll cfgI geoZero 1 [objA] [objB] [()] [()]
          (matcherState cfgI.min_iou geoZero.iouF [()] [()]).result = Except.ok merged ∧
      combineAll cfgI geoZero 1 [objA] [objB] [()] [()]
          (find_matches cfgI.min_iou geoZero.iouF [()] [()]) =
        Except.ok { objs := (merged.objs
            ++ (matcherState cfgI.min_iou geoZero.iouF [()] [()]).matchOld.map
              (fun o => [objA].getD o default)
            ++ (matcherState cfgI.min_iou geoZero.iouF [()] [()]).matchNew.map
              (fun nn => [objB].getD nn default)), warnings := merged.warnings } :=
  C6_combined_order cfgI geoZero (by decide) 1 [objA] [objB] [()] [()] rfl rfl

/-- C7: `_do_process` is pass-through: whenever it returns, the
returned record stream is exactly the incoming record list, unchanged
and in order, independent of the combination side effect. -/
theorem C7_passthrough (cfg : Config) (geo : GeoOps α) [Inhabited α]
    (getAbs : β → List LocatedObject) (st : FilterState) (items : List β)
    (st2 : FilterState) (out : List β) (warns : List String)
    (h : _do_process cfg geo getAbs st items = Except.ok (st2, out, warns)) :
    out = items := by
  induction items generalizing st st2 out warns with
  | nil =>
      simp only [_do_process, Except.ok.injEq, Prod.mk.injEq] at h
      exact h.2.1.symm
  | cons item rest ih =>
      simp only [_do_process] at h
      cases hpi : processItem cfg geo getAbs st item with
      | error e =>
          simp only [hpi] at h
          exact Except.noConfusion h
      | ok r =>
          obtain ⟨st1, w1⟩ := r
          simp only [hpi] at h
          cases hrec : _do_process cfg geo getAbs st1 rest with
          | error e =>
              simp only [hrec] at h
              exact Except.noConfusion h
          | ok r2 =>
              obtain ⟨st3, outs, ws⟩ := r2
              simp only [hrec, Except.ok.injEq, Prod.mk.injEq] at h
              rcases h with ⟨h1, h2, h3⟩
              rw [← h2, ih st1 st3 outs ws hrec]

/-- Witness for `C7_passthrough` at a concrete input. -/
theorem C7_passthrough_witness :
    ([[objA], [objB]] : List (List LocatedObject)) = [[objA], [objB]] :=
  C7_passthrough cfgI geoZero id { streamIndex := 0, currentAnn := none }
    [[objA], [objB]] { streamIndex := 1, currentAnn := some [objA, objB] }
    [[objA], [objB]] [] (by decide)

/-- C8, counterexample: with no frame ever seen, `finalize` performs no
write and raises nothing, but also emits no log notice at all (the
source has no else branch) — refuting the claimed notice. -/
theorem C8_counterexample :
    finalize id cfgI { streamIndex := 0, currentAnn := none } = [] ∧
    ¬ ∃ msg, Effect.logInfo msg ∈ finalize id cfgI { streamIndex := 0, currentAnn := none } := by
  refine ⟨rfl, ?_⟩
  rintro ⟨msg, hmsg⟩
  simp [finalize] at hmsg

/-- C8 (amended): flushing a stream with zero frames ever seen performs
no write, raises no exception, and produces no observable effect at all
— in particular it logs nothing. -/
theorem C8_amended (expand : String → String) (cfg : Config) (si : Nat) :
    finalize expand cfg { streamIndex := si, currentAnn := none } = [] := rfl

/-- Witness for `C8_amended` at a concrete input. -/
theorem C8_amended_witness :
    finalize id cfgI { streamIndex := 5, currentAnn := none } = [] :=
  C8_amended id cfgI 5

/-- C9: every matched correspondence produced by the matcher has IoU
strictly greater than 0, for any threshold in [0,1] including 0 —
disjoint polygons are never matched even when the configured threshold
would permit IoU 0. -/
theorem C9_matched_iou_pos (min_iou : ℚ) (_h0 : 0 ≤ min_iou) (_h1 : min_iou ≤ 1)
    (f : α → α → ℚ) (old new : List α) (c : Corr)
    (hc : c ∈ find_matches min_iou f old new) (hco : c.o ≠ -1) (hcn : c.n ≠ -1) :
    0 < c.iou := by
  rw [find_matches_parts] at hc
  rcases List.mem_append.mp hc with hc1 | hc2
  · rcases List.mem_append.mp hc1 with hc0 | hcold
    · exact ((matcherState_result_ok min_iou f old new).1 c hc0).2.2.1
    · rcases List.mem_map.mp hcold with ⟨o, _, rfl⟩
      simp at hcn
  · rcases List.mem_map.mp hc2 with ⟨nn, _, rfl⟩
    simp at hco

/-- Witness for `C9_matched_iou_pos` at a concrete input with
`min_iou = 0`. -/
theorem C9_matched_iou_pos_witness :
    (0 : ℚ) < ({ o := 0, n := 0, iou := 1 } : Corr).iou :=
  C9_matched_iou_pos 0 le_rfl zero_le_one (fun _ _ : Unit => (1 : ℚ)) [()] [()]
    { o := 0, n := 0, iou := 1 } (by decide) (by decide) (by decide)

/-- C10: when the constructor's validation accepted the combination
mode (it is one of the recognized modes), the "Unknown combination
method" branch of `_do_process` is unreachable — processing never
raises. -/
theorem C10_no_unknown_combination (mi : ℚ) (comb outf : String) (cfg : Config)
    (hinit : CombineAnnotations.init mi comb outf = Except.ok cfg)
    (geo : GeoOps α) [Inhabited α] (getAbs : β → List LocatedObject)
    (st : FilterState) (items : List β) :
    ∃ r, _do_process cfg geo getAbs st items = Except.ok r := by
  have hcomb : cfg.combination ∈ COMBINATIONS := by
    unfold CombineAnnotations.init at hinit
    by_cases h : comb ∈ COMBINATIONS
    · rw [if_pos h] at hinit
      injection hinit with h2
      rw [← h2]
      exact h
    · rw [if_neg h] at hinit
      exact Except.noConfusion hinit
  exact do_process_ok cfg hcomb geo getAbs st items

/-- Witness for `C10_no_unknown_combination` at a concrete input. -/
theorem C10_no_unknown_combination_witness :
    ∃ r, _do_process cfgI geoZero id { streamIndex := 0, currentAnn := none }
        [[objA]] = Except.ok r :=
  C10_no_unknown_combination (mkRat 7 10) INTERSECT "./combined.report" cfgI (by decide)
    geoZero id { streamIndex := 0, currentAnn := none } [[objA]]

end Imgvis
